import Mathlib

/-!
Verification of the outer-loop run orchestrator of the kalshi-analysis harness
(`harness/ralph_loop.py`, `harness/run_state.py`, `harness/isolation_launcher.py`).

Modelling conventions:
* Python `float` is modelled as `ℚ` (exact arithmetic; claims under check are
  algebraic, not about binary rounding), Python `int` as `ℤ`.
* JSON-like payloads (`dict[str, Any]`) are modelled by the inductive `Jval`.
* Stateful code is modelled by explicit state passing; the on-disk artifacts
  (state file, `events.jsonl`, `iterations.jsonl`) by the `Disk` record.
* Wall-clock reads (`utc_now_iso`, `datetime.now`) are threaded as explicit
  `now`/elapsed-time arguments.
-/

/-- JSON-ish values: the payloads the harness passes around (`dict[str, Any]`).
Numbers are rationals (covering Python `int` and `float`); `bool` is kept as a
separate constructor but the numeric coercions below treat it as `0/1`, the
way CPython's `isinstance(x, (int, float))`, `int()` and `float()` do. -/
inductive Jval where
  | null : Jval
  | bool (b : Bool) : Jval
  | num (q : ℚ) : Jval
  | str (s : String) : Jval
  | arr (xs : List Jval) : Jval
  | obj (kvs : List (String × Jval)) : Jval

/-- Python dict lookup (`d.get(key)`), first match on an association list. -/
def jLookup : List (String × Jval) → String → Option Jval
  | [], _ => none
  | (k, v) :: rest, key => if k = key then some v else jLookup rest key

/-- Python `int(x)` on a number: truncation toward zero. -/
def truncInt (q : ℚ) : ℤ := if 0 ≤ q then ⌊q⌋ else ⌈q⌉

theorem truncInt_intCast (m : ℤ) : truncInt (m : ℚ) = m := by
  unfold truncInt
  split <;> simp

/-- `isinstance(v, (int, float))` paired with the numeric value: CPython's
`bool` is a subclass of `int`, so `True`/`False` count as `1`/`0`. -/
def jAsNum : Jval → Option ℚ
  | Jval.num q => some q
  | Jval.bool b => some (if b then 1 else 0)
  | _ => none

/-- Python `int(v)`; string parsing of numerals is not modelled (no claim
exercises it — the state serializer only ever feeds numbers back in). -/
def pyInt : Jval → Except String ℤ
  | Jval.num q => Except.ok (truncInt q)
  | Jval.bool b => Except.ok (if b then 1 else 0)
  | _ => Except.error "int() on non-numeric value"

/-- Python `float(v)`; string parsing of numerals is not modelled (no claim
exercises it). -/
def pyFloat : Jval → Except String ℚ
  | Jval.num q => Except.ok q
  | Jval.bool b => Except.ok (if b then 1 else 0)
  | _ => Except.error "float() on non-numeric value"

/-- Python `str(v)`.  The rendering of non-string values differs from CPython
`repr` in detail; no claim inspects those renderings (the serializer only
feeds strings to the `str(...)`-coerced fields). -/
def pyStr : Jval → String
  | Jval.str s => s
  | Jval.null => "None"
  | Jval.bool b => if b then "True" else "False"
  | Jval.num q => toString q
  | Jval.arr _ => "<list>"
  | Jval.obj _ => "<dict>"

/-- Python truthiness `bool(v)` for JSON-like values. -/
def pyTruthy : Jval → Bool
  | Jval.null => false
  | Jval.bool b => b
  | Jval.num q => decide (q ≠ 0)
  | Jval.str s => decide (s ≠ "")
  | Jval.arr xs => !xs.isEmpty
  | Jval.obj kvs => !kvs.isEmpty

/-- Optional-string fields read back without coercion in `RunState.from_dict`
(`data.get("model")` etc.): JSON `null` is `None`; non-string junk is not
representable in the typed dataclass field and is treated as absent. -/
def jOptStr : Jval → Option String
  | Jval.str s => some s
  | _ => none

/-- Stop limits for the outer loop (`run_state.RunLimits`). -/
structure RunLimits where
  max_cost_usd : Option ℚ := none
  max_time_minutes : Option ℤ := none
  max_tokens_total : Option ℤ := none
  max_iterations : Option ℤ := none
  max_turns_per_iteration : Option ℤ := none
deriving DecidableEq

/-- A resume or restart event (`run_state.ResumeEvent`); `details` is a
free-form JSON map. -/
structure ResumeEvent where
  timestamp : String
  mode : String
  details : List (String × Jval)

/-- Persistent run state (`run_state.RunState`). -/
structure RunState where
  schema_version : ℤ
  run_id : String
  architecture_name : String
  provider : String
  model : Option String
  permission_mode : Option String
  status : String
  created_at : String
  updated_at : String
  started_at : Option String
  stopped_at : Option String
  iteration : ℤ
  session_id : Option String
  session_total_cost_usd : ℚ
  cumulative_cost_usd : ℚ
  cumulative_tokens : ℤ
  cumulative_wall_time_seconds : ℚ
  last_result_subtype : Option String
  last_stop_reason : Option String
  last_stop_detail : Option String
  limits : RunLimits
  resume_history : List ResumeEvent

/-- Left-pad with zeros to width `w`. -/
def padZeros (s : String) (w : ℕ) : String :=
  (List.replicate (w - s.length) '0').asString ++ s

/-- Fixed-point rendering of a rational, mirroring Python's `f"{x:.Nf}"`
format up to the rounding of the underlying binary double (round-half-up is
used here; no claim inspects the rendered digits). -/
def fmtFixed (q : ℚ) (places : ℕ) : String :=
  let scaled : ℤ := ⌊q * (10 : ℚ) ^ places + 1 / 2⌋
  let sign := if scaled < 0 then "-" else ""
  let a := scaled.natAbs
  let ip := a / 10 ^ places
  let fp := a % 10 ^ places
  sign ++ toString ip ++ "." ++ padZeros (toString fp) places

/-- `limits.max_iterations is not None and state.iteration >= limits.max_iterations`. -/
def iterLimitHit (st : RunState) : Bool :=
  match st.limits.max_iterations with
  | none => false
  | some m => decide (m ≤ st.iteration)

/-- `limits.max_cost_usd is not None and state.cumulative_cost_usd >= limits.max_cost_usd`. -/
def costLimitHit (st : RunState) : Bool :=
  match st.limits.max_cost_usd with
  | none => false
  | some c => decide (c ≤ st.cumulative_cost_usd)

/-- `limits.max_tokens_total is not None and state.cumulative_tokens >= limits.max_tokens_total`. -/
def tokensLimitHit (st : RunState) : Bool :=
  match st.limits.max_tokens_total with
  | none => false
  | some t => decide (t ≤ st.cumulative_tokens)

/-- `limits.max_time_minutes is not None and minutes >= limits.max_time_minutes`
where `minutes = cumulative_wall_time_seconds / 60.0`. -/
def timeLimitHit (st : RunState) : Bool :=
  match st.limits.max_time_minutes with
  | none => false
  | some t => decide ((t : ℚ) ≤ st.cumulative_wall_time_seconds / 60)

/-- `ralph_loop._state_stop_check`: evaluate stop limits from state, in the
source's order (iterations, cost, tokens, wall time). -/
def state_stop_check (st : RunState) : Bool × Option String × Option String :=
  if iterLimitHit st then
    (true, some "max_iterations_reached", some ("iteration=" ++ toString st.iteration))
  else if costLimitHit st then
    (true, some "max_cost_reached", some ("cost_usd=" ++ fmtFixed st.cumulative_cost_usd 4))
  else if tokensLimitHit st then
    (true, some "max_tokens_reached", some ("tokens=" ++ toString st.cumulative_tokens))
  else if timeLimitHit st then
    (true, some "max_time_reached", some ("minutes=" ++ fmtFixed (st.cumulative_wall_time_seconds / 60) 2))
  else
    (false, none, none)

/-- C1: `_state_stop_check` is a pure function of `RunState` that checks the
dimensions in the fixed order iterations, cost, tokens, wall time and reports
the first dimension at/over its ceiling, together with a stop reason and a
detail string; an unset limit never triggers, and under simultaneous
exhaustion the earlier dimension in that order wins (in particular
`max_iterations_reached` before `max_cost_reached`). -/
theorem stop_check_priority_c1 (st : RunState) :
    ((state_stop_check st).1 = true ↔
      (iterLimitHit st || costLimitHit st || tokensLimitHit st || timeLimitHit st) = true)
    ∧ ((state_stop_check st).2.1 = some "max_iterations_reached" ↔ iterLimitHit st = true)
    ∧ ((state_stop_check st).2.1 = some "max_cost_reached" ↔
        (iterLimitHit st = false ∧ costLimitHit st = true))
    ∧ ((state_stop_check st).2.1 = some "max_tokens_reached" ↔
        (iterLimitHit st = false ∧ costLimitHit st = false ∧ tokensLimitHit st = true))
    ∧ ((state_stop_check st).2.1 = some "max_time_reached" ↔
        (iterLimitHit st = false ∧ costLimitHit st = false ∧ tokensLimitHit st = false ∧
          timeLimitHit st = true))
    ∧ ((state_stop_check st).2.1.isSome = (state_stop_check st).1)
    ∧ ((state_stop_check st).2.2.isSome = (state_stop_check st).1)
    ∧ (st.limits.max_iterations = none → iterLimitHit st = false)
    ∧ (st.limits.max_cost_usd = none → costLimitHit st = false)
    ∧ (st.limits.max_tokens_total = none → tokensLimitHit st = false)
    ∧ (st.limits.max_time_minutes = none → timeLimitHit st = false)
    ∧ (iterLimitHit st = true → costLimitHit st = true →
        (state_stop_check st).2.1 = some "max_iterations_reached") := by
  have hIn : st.limits.max_iterations = none → iterLimitHit st = false := fun h => by
    simp [iterLimitHit, h]
  have hCn : st.limits.max_cost_usd = none → costLimitHit st = false := fun h => by
    simp [costLimitHit, h]
  have hTn : st.limits.max_tokens_total = none → tokensLimitHit st = false := fun h => by
    simp [tokensLimitHit, h]
  have hWn : st.limits.max_time_minutes = none → timeLimitHit st = false := fun h => by
    simp [timeLimitHit, h]
  refine ⟨?_, ?_, ?_, ?_, ?_, ?_, ?_, hIn, hCn, hTn, hWn, ?_⟩ <;>
    (unfold state_stop_check
     cases hI : iterLimitHit st <;> cases hC : costLimitHit st <;>
       cases hT : tokensLimitHit st <;> cases hW : timeLimitHit st <;> simp)

/-- `ralph_loop._compute_cost_delta`.  The `if state.session_id and
result_session == state.session_id` guard: the state's session id must be
truthy (present and non-empty) and equal to the reported one. -/
def compute_cost_delta (result_total : Option ℚ) (st : RunState) (result_session : String) : ℚ :=
  match result_total with
  | none => 0
  | some total =>
    match st.session_id with
    | some s =>
      if s ≠ "" ∧ result_session = s then max (total - st.session_total_cost_usd) 0
      else max total 0
    | none => max total 0

/-- The state has a current (non-empty) session equal to the reported one. -/
def sessionMatches (st : RunState) (result_session : String) : Prop :=
  ∃ s, st.session_id = some s ∧ s ≠ "" ∧ result_session = s

/-- A baseline `RunState` used for concrete scenarios and witnesses. -/
def baseState : RunState where
  schema_version := 1
  run_id := "run-001"
  architecture_name := "ralph"
  provider := "claude"
  model := none
  permission_mode := none
  status := "initialized"
  created_at := "2026-01-01T00:00:00+00:00"
  updated_at := "2026-01-01T00:00:00+00:00"
  started_at := none
  stopped_at := none
  iteration := 0
  session_id := none
  session_total_cost_usd := 0
  cumulative_cost_usd := 0
  cumulative_tokens := 0
  cumulative_wall_time_seconds := 0
  last_result_subtype := none
  last_stop_reason := none
  last_stop_detail := none
  limits := {}
  resume_history := []

/-- A continued-session state: current session `sess-1`, previous session
total $1.00. -/
def contState : RunState :=
  { baseState with session_id := some "sess-1", session_total_cost_usd := 1 }

/-- A state whose current session is `old` (for the session-change scenario). -/
def oldSessState : RunState := { baseState with session_id := some "old" }

/-- C3: post-iteration cost delta: with a matching current session the delta
is `max(reported_total − session_total_cost_usd, 0)`; with a different (or no)
current session the whole (nonnegative) reported total is the delta.  In the
continued-session scenario with previous session total $1.00 and reported
total $1.40, the delta is $0.40, not $1.40. -/
theorem cost_delta_c3 (st : RunState) (total : ℚ) (result_session : String) :
    (sessionMatches st result_session →
      compute_cost_delta (some total) st result_session =
        max (total - st.session_total_cost_usd) 0)
    ∧ (¬sessionMatches st result_session → 0 ≤ total →
        compute_cost_delta (some total) st result_session = total)
    ∧ compute_cost_delta (some 1.4) contState "sess-1" = 0.4 := by
  refine ⟨?_, ?_, ?_⟩
  · rintro ⟨s, hs, hne, heq⟩
    simp [compute_cost_delta, hs, hne, heq]
  · intro hnm htot
    cases hs : st.session_id with
    | none => simp [compute_cost_delta, hs, max_eq_left htot]
    | some s =>
      have hcond : ¬(s ≠ "" ∧ result_session = s) := by
        rintro ⟨hne, heq⟩
        exact hnm ⟨s, hs, hne, heq⟩
      simp [compute_cost_delta, hs, hcond, max_eq_left htot]
  · show (if ("sess-1" : String) ≠ "" ∧ ("sess-1" : String) = "sess-1"
        then max ((1.4 : ℚ) - 1) 0 else max (1.4 : ℚ) 0) = 0.4
    rw [if_pos ⟨by decide, rfl⟩]
    norm_num

/-- Witness for C3 at concrete inputs: a matching session with totals
$1.40/$1.00 gives $0.40; a session change with reported total $2 gives $2. -/
theorem cost_delta_c3_witness :
    compute_cost_delta (some 1.4) contState "sess-1" = max (1.4 - 1) 0
    ∧ compute_cost_delta (some 2) oldSessState "new" = 2 := by
  constructor
  · exact (cost_delta_c3 contState 1.4 "sess-1").1 ⟨"sess-1", rfl, by decide, rfl⟩
  · refine (cost_delta_c3 oldSessState 2 "new").2.1 ?_ (by norm_num)
    rintro ⟨s, hs, hne, heq⟩
    have hso : s = "old" := by
      have : some s = some "old" := by
        rw [← hs]
        rfl
      exact (Option.some.injEq _ _).mp this.symm |>.symm
    rw [hso] at heq
    exact absurd heq (by decide)

/-- `needle` occurs at the start of `hay` (character lists). -/
def startsWithChars : List Char → List Char → Bool
  | [], _ => true
  | _ :: _, [] => false
  | a :: as, b :: bs => a == b && startsWithChars as bs

/-- `needle in hay` (Python substring containment, on character lists). -/
def containsChars (needle : List Char) : List Char → Bool
  | [] => needle.isEmpty
  | b :: bs => startsWithChars needle (b :: bs) || containsChars needle bs

/-- Python `"token" in key.lower()`. -/
def keyMentionsToken (key : String) : Bool :=
  containsChars "token".toList key.toLower.toList

mutual

/-- `ralph_loop._extract_token_total`, inner `walk` over a JSON payload:
numeric values whose key mentions "token" (case-insensitive) are summed;
other values are walked recursively. -/
def walkTokens : Jval → ℤ
  | Jval.obj kvs => walkTokensObj kvs
  | Jval.arr xs => walkTokensArr xs
  | _ => 0

/-- `walk` over the items of a dict. -/
def walkTokensObj : List (String × Jval) → ℤ
  | [] => 0
  | (k, v) :: rest =>
    (match jAsNum v with
     | some q => if keyMentionsToken k then truncInt q else walkTokens v
     | none => walkTokens v) + walkTokensObj rest

/-- `walk` over the items of a list. -/
def walkTokensArr : List Jval → ℤ
  | [] => 0
  | v :: rest => walkTokens v + walkTokensArr rest

end

/-- `ralph_loop._extract_token_total`: best-effort token extraction from a
usage payload; `total_tokens`/`totalTokens` preferred, else a recursive sum
of numeric "token" fields. -/
def extract_token_total (usage : Option (List (String × Jval))) : ℤ :=
  match usage with
  | none => 0
  | some [] => 0
  | some kvs =>
    match (jLookup kvs "total_tokens").bind jAsNum with
    | some q => truncInt q
    | none =>
      match (jLookup kvs "totalTokens").bind jAsNum with
      | some q => truncInt q
      | none => walkTokensObj kvs

/-- The cost delta is clamped at zero in every branch. -/
theorem compute_cost_delta_nonneg (t : Option ℚ) (st : RunState) (rs : String) :
    0 ≤ compute_cost_delta t st rs := by
  unfold compute_cost_delta
  rcases t with _ | total
  · exact le_rfl
  · rcases st.session_id with _ | s
    · exact le_max_right _ _
    · dsimp only
      split <;> exact le_max_right _ _

/-- One terminal `ResultMessage` of an iteration, together with the
orchestrator-observed wall time elapsed for that iteration. -/
structure IterResult where
  session_id : String
  total_cost_usd : Option ℚ
  usage : Option (List (String × Jval))
  subtype : String
  is_error : Bool
  elapsed_seconds : ℚ

/-- The post-iteration accounting step of `RalphLoopRunner.run` (state
mutations after a result message: iteration counter, session identity,
session total, cumulative accumulators, last result subtype). -/
def applyAccounting (st : RunState) (r : IterResult) : RunState :=
  let cost_delta := compute_cost_delta r.total_cost_usd st r.session_id
  let token_delta := extract_token_total r.usage
  { st with
    iteration := st.iteration + 1
    session_id := some r.session_id
    session_total_cost_usd :=
      match r.total_cost_usd with
      | some c => c
      | none => st.session_total_cost_usd
    cumulative_cost_usd := st.cumulative_cost_usd + cost_delta
    cumulative_tokens := st.cumulative_tokens + token_delta
    cumulative_wall_time_seconds := st.cumulative_wall_time_seconds + r.elapsed_seconds
    last_result_subtype := some r.subtype }

/-- C8 counterexample: the claim "cumulative accumulators are monotonically
non-decreasing ... for any result payload, including arbitrary usage
dictionaries" is false: a usage dict `{"total_tokens": -5}` makes the token
accumulator decrease across one accounting step. -/
theorem accounting_monotone_c8_counterexample :
    (applyAccounting baseState
        { session_id := "s1", total_cost_usd := none,
          usage := some [("total_tokens", Jval.num (-5))],
          subtype := "success", is_error := false, elapsed_seconds := 0 }).cumulative_tokens
      < baseState.cumulative_tokens := by
  have h5 : truncInt ((-5 : ℚ)) = -5 := by
    have := truncInt_intCast (-5)
    simpa using this
  simp [applyAccounting, extract_token_total, jLookup, jAsNum, baseState, h5]

/-- C8 (amended): across one post-iteration accounting step, the cumulative
cost accumulator never decreases (the delta is clamped at zero); the wall-time
accumulator never decreases given nonnegative observed elapsed time; and the
token accumulator never decreases whenever the token delta extracted from the
usage payload is nonnegative (arbitrary payloads can yield a negative delta,
see the counterexample). -/
theorem accounting_monotone_c8 (st : RunState) (r : IterResult) :
    st.cumulative_cost_usd ≤ (applyAccounting st r).cumulative_cost_usd
    ∧ (0 ≤ r.elapsed_seconds →
        st.cumulative_wall_time_seconds ≤ (applyAccounting st r).cumulative_wall_time_seconds)
    ∧ (0 ≤ extract_token_total r.usage →
        st.cumulative_tokens ≤ (applyAccounting st r).cumulative_tokens) := by
  refine ⟨?_, fun h => ?_, fun h => ?_⟩
  · simp only [applyAccounting]
    exact le_add_of_nonneg_right (compute_cost_delta_nonneg r.total_cost_usd st r.session_id)
  · simp only [applyAccounting]
    exact le_add_of_nonneg_right h
  · simp only [applyAccounting]
    exact le_add_of_nonneg_right h

/-- Witness for C8's amended theorem at a concrete state and result. -/
theorem accounting_monotone_c8_witness :
    baseState.cumulative_wall_time_seconds ≤
      (applyAccounting baseState
        { session_id := "s1", total_cost_usd := some 1, usage := some [("total_tokens", Jval.num 7)],
          subtype := "success", is_error := false, elapsed_seconds := 2 }).cumulative_wall_time_seconds
    ∧ baseState.cumulative_tokens ≤
      (applyAccounting baseState
        { session_id := "s1", total_cost_usd := some 1, usage := some [("total_tokens", Jval.num 7)],
          subtype := "success", is_error := false, elapsed_seconds := 2 }).cumulative_tokens := by
  constructor
  · exact (accounting_monotone_c8 baseState _).2.1 (by norm_num)
  · refine (accounting_monotone_c8 baseState _).2.2 ?_
    have h7 : truncInt ((7 : ℚ)) = 7 := by
      have := truncInt_intCast 7
      simpa using this
    simp [extract_token_total, jLookup, jAsNum, h7]

/-- Runtime options for running/resuming the loop (`ralph_loop.RalphLoopConfig`). -/
structure RalphLoopConfig where
  max_cost_usd : Option ℚ := none
  max_time_minutes : Option ℤ := none
  max_tokens_total : Option ℤ := none
  max_iterations : Option ℤ := none
  new_session_from_checkpoint : Bool := false
  extend_cost_usd : ℚ := 0
  extend_time_minutes : ℤ := 0
  extend_tokens_total : ℤ := 0
  extend_iterations : ℤ := 0
  permission_mode_override : Option String := none

/-- `RunState.add_resume_event`: append to `resume_history` and touch
`updated_at` (the clock value is the explicit `now`). -/
def add_resume_event (now : String) (mode : String) (details : List (String × Jval))
    (st : RunState) : RunState :=
  { st with resume_history := st.resume_history ++ [⟨now, mode, details⟩], updated_at := now }

/-- `RalphLoopRunner._apply_run_overrides`: absolute ceilings replace the
manifest-derived ones when given. -/
def apply_run_overrides (cfg : RalphLoopConfig) (st : RunState) : RunState :=
  let st1 := match cfg.max_cost_usd with
    | some v => { st with limits := { st.limits with max_cost_usd := some v } }
    | none => st
  let st2 := match cfg.max_time_minutes with
    | some v => { st1 with limits := { st1.limits with max_time_minutes := some v } }
    | none => st1
  let st3 := match cfg.max_tokens_total with
    | some v => { st2 with limits := { st2.limits with max_tokens_total := some v } }
    | none => st2
  match cfg.max_iterations with
  | some v => { st3 with limits := { st3.limits with max_iterations := some v } }
  | none => st3

/-- The `details` dict built by `_apply_resume_overrides` (insertion order of
the truthy extensions, then the fresh-session flag). -/
def resumeDetails (cfg : RalphLoopConfig) : List (String × Jval) :=
  (if cfg.extend_cost_usd ≠ 0 then [("extend_cost_usd", Jval.num cfg.extend_cost_usd)] else [])
  ++ (if cfg.extend_time_minutes ≠ 0 then
        [("extend_time_minutes", Jval.num (cfg.extend_time_minutes : ℚ))] else [])
  ++ (if cfg.extend_tokens_total ≠ 0 then
        [("extend_tokens_total", Jval.num (cfg.extend_tokens_total : ℚ))] else [])
  ++ (if cfg.extend_iterations ≠ 0 then
        [("extend_iterations", Jval.num (cfg.extend_iterations : ℚ))] else [])
  ++ (if cfg.new_session_from_checkpoint then
        [("new_session_from_checkpoint", Jval.bool true)] else [])

/-- The `if limit is None: set else: add` pattern of `_apply_resume_overrides`. -/
def extendLimit {α : Type} [Add α] (cur : Option α) (ext : α) : Option α :=
  match cur with
  | none => some ext
  | some m => some (m + ext)

/-- The iteration variant: a previously unset ceiling is set relative to the
current iteration count. -/
def extendIterLimit (cur : Option ℤ) (iter ext : ℤ) : Option ℤ :=
  match cur with
  | none => some (iter + ext)
  | some m => some (m + ext)

theorem extendLimit_eq {α : Type} [AddZeroClass α] (cur : Option α) (ext : α) :
    extendLimit cur ext = some (cur.getD 0 + ext) := by
  cases cur <;> simp [extendLimit]

/-- `RalphLoopRunner._apply_resume_overrides`: additive `extend_*` overrides
(each guarded by Python truthiness, i.e. a zero extension is skipped),
`extend_iterations` relative to the current iteration when no ceiling exists,
then the optional fresh-session reset, then a `resume` history event. -/
def apply_resume_overrides (now : String) (cfg : RalphLoopConfig) (st : RunState) : RunState :=
  let st1 := if cfg.extend_cost_usd ≠ 0 then
      { st with limits := { st.limits with
          max_cost_usd := extendLimit st.limits.max_cost_usd cfg.extend_cost_usd } }
    else st
  let st2 := if cfg.extend_time_minutes ≠ 0 then
      { st1 with limits := { st1.limits with
          max_time_minutes := extendLimit st1.limits.max_time_minutes cfg.extend_time_minutes } }
    else st1
  let st3 := if cfg.extend_tokens_total ≠ 0 then
      { st2 with limits := { st2.limits with
          max_tokens_total := extendLimit st2.limits.max_tokens_total cfg.extend_tokens_total } }
    else st2
  let st4 := if cfg.extend_iterations ≠ 0 then
      { st3 with limits := { st3.limits with
          max_iterations :=
            extendIterLimit st3.limits.max_iterations st3.iteration cfg.extend_iterations } }
    else st3
  let st5 := if cfg.new_session_from_checkpoint then
      { st4 with session_id := none, session_total_cost_usd := 0 }
    else st4
  add_resume_event now "resume" (resumeDetails cfg) st5

/-- A nonzero cost extension rewrites the cost ceiling by `extendLimit` and
nothing later in `_apply_resume_overrides` touches it again. -/
theorem resume_cost_update (now : String) (cfg : RalphLoopConfig) (st : RunState)
    (hne : cfg.extend_cost_usd ≠ 0) :
    (apply_resume_overrides now cfg st).limits.max_cost_usd =
      extendLimit st.limits.max_cost_usd cfg.extend_cost_usd := by
  simp only [apply_resume_overrides, add_resume_event]
  split_ifs <;> simp_all

/-- C4: resume overrides are additive: an extension `c > 0` increases an
existing ceiling by `c` and establishes `c` as the ceiling when unset (the
`getD 0` form covers both), for cost, time and tokens alike; with no existing
iteration ceiling, `extend_iterations` sets the ceiling relative to the
current iteration count; and resuming twice with `extend_cost_usd = 5` yields
`original + 5 + 5`, never a reset. -/
theorem resume_additivity_c4 (now : String) (cfg : RalphLoopConfig) (st : RunState) :
    (0 < cfg.extend_cost_usd →
      (apply_resume_overrides now cfg st).limits.max_cost_usd =
        some (st.limits.max_cost_usd.getD 0 + cfg.extend_cost_usd))
    ∧ (0 < cfg.extend_time_minutes →
        (apply_resume_overrides now cfg st).limits.max_time_minutes =
          some (st.limits.max_time_minutes.getD 0 + cfg.extend_time_minutes))
    ∧ (0 < cfg.extend_tokens_total →
        (apply_resume_overrides now cfg st).limits.max_tokens_total =
          some (st.limits.max_tokens_total.getD 0 + cfg.extend_tokens_total))
    ∧ (0 < cfg.extend_iterations → st.limits.max_iterations = none →
        (apply_resume_overrides now cfg st).limits.max_iterations =
          some (st.iteration + cfg.extend_iterations))
    ∧ (∀ o : ℚ, st.limits.max_cost_usd = some o → cfg.extend_cost_usd = 5 →
        (apply_resume_overrides now cfg (apply_resume_overrides now cfg st)).limits.max_cost_usd
          = some (o + 5 + 5)) := by
  refine ⟨fun hc => ?_, fun ht => ?_, fun hk => ?_, fun hi hnone => ?_, fun o ho h5 => ?_⟩
  · have hne : cfg.extend_cost_usd ≠ 0 := ne_of_gt hc
    rw [resume_cost_update now cfg st hne, extendLimit_eq]
  · have hne : cfg.extend_time_minutes ≠ 0 := ne_of_gt ht
    simp only [apply_resume_overrides, add_resume_event]
    split_ifs <;> simp_all [extendLimit_eq]
  · have hne : cfg.extend_tokens_total ≠ 0 := ne_of_gt hk
    simp only [apply_resume_overrides, add_resume_event]
    split_ifs <;> simp_all [extendLimit_eq]
  · have hne : cfg.extend_iterations ≠ 0 := ne_of_gt hi
    simp only [apply_resume_overrides, add_resume_event]
    split_ifs <;> simp_all [extendIterLimit, hnone]
  · have hne : cfg.extend_cost_usd ≠ 0 := by
      rw [h5]
      norm_num
    rw [resume_cost_update now cfg _ hne, resume_cost_update now cfg st hne, ho, h5]
    simp [extendLimit]

/-- A state with an existing $10 cost ceiling, no iteration ceiling, at
iteration 3 (for the C4 witness). -/
def c4State : RunState :=
  { baseState with iteration := 3, limits := { max_cost_usd := some 10 } }

/-- A resume config extending every budget dimension (for the C4 witness). -/
def c4Cfg : RalphLoopConfig :=
  { extend_cost_usd := 5, extend_time_minutes := 30, extend_tokens_total := 1000,
    extend_iterations := 2 }

/-- Witness for C4 at a concrete state (existing $10 cost ceiling, no
iteration ceiling, iteration 3) and a concrete resume config. -/
theorem resume_additivity_c4_witness :
    (apply_resume_overrides "t1" c4Cfg c4State).limits.max_cost_usd = some ((10 : ℚ) + 5)
    ∧ (apply_resume_overrides "t1" c4Cfg c4State).limits.max_iterations = some ((3 : ℤ) + 2) := by
  constructor
  · have h := (resume_additivity_c4 "t1" c4Cfg c4State).1 (by norm_num [c4Cfg])
    simpa [c4State, c4Cfg, baseState] using h
  · have h := (resume_additivity_c4 "t1" c4Cfg c4State).2.2.2.1 (by norm_num [c4Cfg]) rfl
    simpa [c4State, c4Cfg, baseState] using h

/-- C7: resuming with `new_session_from_checkpoint = true` clears the session
identity and zeroes the session-scoped cost, while the cumulative
accumulators are untouched; the limit ceilings change exactly as the
separately requested extensions dictate (identically to the same resume
without the flag), and with no extensions requested they are untouched. -/
theorem new_session_frame_c7 (now : String) (cfg : RalphLoopConfig) (st : RunState) :
    cfg.new_session_from_checkpoint = true →
    (apply_resume_overrides now cfg st).session_id = none
    ∧ (apply_resume_overrides now cfg st).session_total_cost_usd = 0
    ∧ (apply_resume_overrides now cfg st).cumulative_cost_usd = st.cumulative_cost_usd
    ∧ (apply_resume_overrides now cfg st).cumulative_tokens = st.cumulative_tokens
    ∧ (apply_resume_overrides now cfg st).cumulative_wall_time_seconds
        = st.cumulative_wall_time_seconds
    ∧ (apply_resume_overrides now cfg st).limits
        = (apply_resume_overrides now { cfg with new_session_from_checkpoint := false } st).limits
    ∧ (cfg.extend_cost_usd = 0 → cfg.extend_time_minutes = 0 → cfg.extend_tokens_total = 0 →
        cfg.extend_iterations = 0 → (apply_resume_overrides now cfg st).limits = st.limits) := by
  intro hflag
  unfold apply_resume_overrides
  refine ⟨?_, ?_, ?_, ?_, ?_, ?_, ?_⟩ <;>
    simp only [add_resume_event, hflag, if_true] <;>
      split_ifs <;> simp_all

/-- Witness for C7 at a concrete resume config carrying the flag and a cost
extension, on the continued-session base state. -/
theorem new_session_frame_c7_witness :
    (apply_resume_overrides "t2" { new_session_from_checkpoint := true, extend_cost_usd := 5 }
        contState).session_id = none
    ∧ (apply_resume_overrides "t2" { new_session_from_checkpoint := true, extend_cost_usd := 5 }
        contState).session_total_cost_usd = 0
    ∧ (apply_resume_overrides "t2" { new_session_from_checkpoint := true, extend_cost_usd := 5 }
        contState).cumulative_tokens = contState.cumulative_tokens := by
  have h := new_session_frame_c7 "t2"
    { new_session_from_checkpoint := true, extend_cost_usd := 5 } contState rfl
  exact ⟨h.1, h.2.1, h.2.2.2.1⟩

/-- JSON encoding of an optional string (Python `None` -> `null`). -/
def optStrJson : Option String → Jval
  | none => Jval.null
  | some s => Jval.str s

/-- JSON encoding of an optional float. -/
def optRatJson : Option ℚ → Jval
  | none => Jval.null
  | some q => Jval.num q

/-- JSON encoding of an optional int. -/
def optIntJson : Option ℤ → Jval
  | none => Jval.null
  | some n => Jval.num (n : ℚ)

/-- `dataclasses.asdict` of `RunLimits`, in field order. -/
def limitsJson (l : RunLimits) : Jval :=
  Jval.obj [("max_cost_usd", optRatJson l.max_cost_usd),
            ("max_time_minutes", optIntJson l.max_time_minutes),
            ("max_tokens_total", optIntJson l.max_tokens_total),
            ("max_iterations", optIntJson l.max_iterations),
            ("max_turns_per_iteration", optIntJson l.max_turns_per_iteration)]

/-- `dataclasses.asdict` of `ResumeEvent`, in field order. -/
def resumeEventJson (e : ResumeEvent) : Jval :=
  Jval.obj [("timestamp", Jval.str e.timestamp),
            ("mode", Jval.str e.mode),
            ("details", Jval.obj e.details)]

/-- `RunState.as_dict` (via `dataclasses.asdict`): all fields, in dataclass
field order, as written by `json.dumps(..., sort_keys=False)`. -/
def stateJson (st : RunState) : Jval :=
  Jval.obj [("schema_version", Jval.num (st.schema_version : ℚ)),
            ("run_id", Jval.str st.run_id),
            ("architecture_name", Jval.str st.architecture_name),
            ("provider", Jval.str st.provider),
            ("model", optStrJson st.model),
            ("permission_mode", optStrJson st.permission_mode),
            ("status", Jval.str st.status),
            ("created_at", Jval.str st.created_at),
            ("updated_at", Jval.str st.updated_at),
            ("started_at", optStrJson st.started_at),
            ("stopped_at", optStrJson st.stopped_at),
            ("iteration", Jval.num (st.iteration : ℚ)),
            ("session_id", optStrJson st.session_id),
            ("session_total_cost_usd", Jval.num st.session_total_cost_usd),
            ("cumulative_cost_usd", Jval.num st.cumulative_cost_usd),
            ("cumulative_tokens", Jval.num (st.cumulative_tokens : ℚ)),
            ("cumulative_wall_time_seconds", Jval.num st.cumulative_wall_time_seconds),
            ("last_result_subtype", optStrJson st.last_result_subtype),
            ("last_stop_reason", optStrJson st.last_stop_reason),
            ("last_stop_detail", optStrJson st.last_stop_detail),
            ("limits", limitsJson st.limits),
            ("resume_history", Jval.arr (st.resume_history.map resumeEventJson))]

/-- `run_state.save_state`: `state.mark_updated()` (stamp `updated_at` with
the clock value `now`), then write `json.dumps(state.as_dict())`. -/
def save_doc (now : String) (st : RunState) : Jval :=
  stateJson { st with updated_at := now }

/-- `float(limits_raw[k]) if limits_raw.get(k) is not None else None`. -/
def readOptFloat (v : Option Jval) : Except String (Option ℚ) :=
  match v with
  | none => Except.ok none
  | some Jval.null => Except.ok none
  | some w => (pyFloat w).map some

/-- `int(limits_raw[k]) if limits_raw.get(k) is not None else None`. -/
def readOptInt (v : Option Jval) : Except String (Option ℤ) :=
  match v with
  | none => Except.ok none
  | some Jval.null => Except.ok none
  | some w => (pyInt w).map some

theorem exceptBindOk {α β : Type} (a : α) (f : α → Except String β) :
    (Except.ok a : Except String α) >>= f = f a := rfl

/-- Error-propagating map over a list (the `from_dict` list comprehension:
the first failing item aborts the reconstruction). -/
def mapExcept {α β : Type} (f : α → Except String β) : List α → Except String (List β)
  | [] => Except.ok []
  | x :: xs =>
    match f x with
    | Except.error e => Except.error e
    | Except.ok y =>
      match mapExcept f xs with
      | Except.error e => Except.error e
      | Except.ok ys => Except.ok (y :: ys)

/-- One entry of `resume_history` in `RunState.from_dict`: `item.get` raises
on non-mappings; missing `timestamp` defaults to the current clock value
`now` (`utc_now_iso()`), missing `mode` to `"resume"`; `dict(...)` of the
details raises on non-mappings. -/
def loadResumeEvent (now : String) (j : Jval) : Except String ResumeEvent :=
  match j with
  | Jval.obj kvs => do
    let details ← match (jLookup kvs "details").getD (Jval.obj []) with
      | Jval.obj d => Except.ok d
      | _ => Except.error "TypeError: details is not a mapping"
    Except.ok {
      timestamp := pyStr ((jLookup kvs "timestamp").getD (Jval.str now))
      mode := pyStr ((jLookup kvs "mode").getD (Jval.str "resume"))
      details := details }
  | _ => Except.error "AttributeError: resume event is not a mapping"

/-- `RunState.from_dict`: field-by-field reconstruction with the source's
`.get` defaults, required keys (`run_id`, `architecture_name`,
`created_at`), `int()`/`float()`/`str()` coercions, `None`-guarded limit
fields and the `resume_history` item loop. -/
def from_dict (now : String) (kvs : List (String × Jval)) : Except String RunState := do
  let schema_version ← pyInt ((jLookup kvs "schema_version").getD (Jval.num 1))
  let run_id_raw ← match jLookup kvs "run_id" with
    | some v => Except.ok v
    | none => Except.error "KeyError: run_id"
  let architecture_name_raw ← match jLookup kvs "architecture_name" with
    | some v => Except.ok v
    | none => Except.error "KeyError: architecture_name"
  let created_raw ← match jLookup kvs "created_at" with
    | some v => Except.ok v
    | none => Except.error "KeyError: created_at"
  let iteration ← pyInt ((jLookup kvs "iteration").getD (Jval.num 0))
  let session_total_cost_usd ← pyFloat ((jLookup kvs "session_total_cost_usd").getD (Jval.num 0))
  let cumulative_cost_usd ← pyFloat ((jLookup kvs "cumulative_cost_usd").getD (Jval.num 0))
  let cumulative_tokens ← pyInt ((jLookup kvs "cumulative_tokens").getD (Jval.num 0))
  let cumulative_wall_time_seconds ←
    pyFloat ((jLookup kvs "cumulative_wall_time_seconds").getD (Jval.num 0))
  let limits_raw ← match (jLookup kvs "limits").getD (Jval.obj []) with
    | Jval.obj l => Except.ok l
    | _ => Except.error "AttributeError: limits block is not a mapping"
  let max_cost_usd ← readOptFloat (jLookup limits_raw "max_cost_usd")
  let max_time_minutes ← readOptInt (jLookup limits_raw "max_time_minutes")
  let max_tokens_total ← readOptInt (jLookup limits_raw "max_tokens_total")
  let max_iterations ← readOptInt (jLookup limits_raw "max_iterations")
  let max_turns_per_iteration ← readOptInt (jLookup limits_raw "max_turns_per_iteration")
  let resume_items ← match (jLookup kvs "resume_history").getD (Jval.arr []) with
    | Jval.arr items => Except.ok items
    | _ => Except.error "TypeError: resume_history is not a list"
  let resume_history ← mapExcept (loadResumeEvent now) resume_items
  Except.ok {
    schema_version := schema_version
    run_id := pyStr run_id_raw
    architecture_name := pyStr architecture_name_raw
    provider := pyStr ((jLookup kvs "provider").getD (Jval.str "claude"))
    model := jOptStr ((jLookup kvs "model").getD Jval.null)
    permission_mode := jOptStr ((jLookup kvs "permission_mode").getD Jval.null)
    status := pyStr ((jLookup kvs "status").getD (Jval.str "initialized"))
    created_at := pyStr created_raw
    updated_at := pyStr ((jLookup kvs "updated_at").getD created_raw)
    started_at := jOptStr ((jLookup kvs "started_at").getD Jval.null)
    stopped_at := jOptStr ((jLookup kvs "stopped_at").getD Jval.null)
    iteration := iteration
    session_id := jOptStr ((jLookup kvs "session_id").getD Jval.null)
    session_total_cost_usd := session_total_cost_usd
    cumulative_cost_usd := cumulative_cost_usd
    cumulative_tokens := cumulative_tokens
    cumulative_wall_time_seconds := cumulative_wall_time_seconds
    last_result_subtype := jOptStr ((jLookup kvs "last_result_subtype").getD Jval.null)
    last_stop_reason := jOptStr ((jLookup kvs "last_stop_reason").getD Jval.null)
    last_stop_detail := jOptStr ((jLookup kvs "last_stop_detail").getD Jval.null)
    limits := {
      max_cost_usd := max_cost_usd
      max_time_minutes := max_time_minutes
      max_tokens_total := max_tokens_total
      max_iterations := max_iterations
      max_turns_per_iteration := max_turns_per_iteration }
    resume_history := resume_history }

/-- `run_state.load_state`: parse the JSON document, reject non-mappings
(the `CorruptState` check), then `RunState.from_dict`. -/
def load_doc (now : String) (doc : Jval) : Except String RunState :=
  match doc with
  | Jval.obj kvs => from_dict now kvs
  | _ => Except.error "Invalid state file"

/-- Top-level field of a JSON document. -/
def jGetField (j : Jval) (key : String) : Option Jval :=
  match j with
  | Jval.obj kvs => jLookup kvs key
  | _ => none

theorem pyInt_num_int (m : ℤ) : pyInt (Jval.num (m : ℚ)) = Except.ok m := by
  simp [pyInt, truncInt_intCast]

theorem jOptStr_optStrJson (o : Option String) : jOptStr (optStrJson o) = o := by
  cases o <;> rfl

theorem readOptFloat_saved (o : Option ℚ) : readOptFloat (some (optRatJson o)) = Except.ok o := by
  cases o <;> rfl

theorem readOptInt_saved (o : Option ℤ) : readOptInt (some (optIntJson o)) = Except.ok o := by
  cases o with
  | none => rfl
  | some m => simp [readOptInt, optIntJson, pyInt, truncInt_intCast, Except.map]

theorem loadResumeEvent_round (now : String) (e : ResumeEvent) :
    loadResumeEvent now (resumeEventJson e) = Except.ok e := rfl

theorem mapExcept_loadResumeEvent (now : String) (l : List ResumeEvent) :
    mapExcept (loadResumeEvent now) (l.map resumeEventJson) = Except.ok l := by
  induction l with
  | nil => rfl
  | cons e rest ih => simp [mapExcept, loadResumeEvent_round, ih]

/-- C5: state serialization round-trips losslessly and stably: loading a
saved document reconstructs the saved state exactly, hence
`save(load(save(state)))` produces the same document as `save(state)`
(timestamps threaded explicitly: both outer saves stamp with the same clock
reading `t2`); and `save` always stamps `updated_at` (the saved document's
`updated_at` field is the stamp time). -/
theorem state_round_trip_c5 (st : RunState) (t1 t2 now : String) :
    load_doc now (save_doc t1 st) = Except.ok { st with updated_at := t1 }
    ∧ (load_doc now (save_doc t1 st)).map (save_doc t2) = Except.ok (save_doc t2 st)
    ∧ jGetField (save_doc t1 st) "updated_at" = some (Jval.str t1) := by
  have h1 : load_doc now (save_doc t1 st) = Except.ok { st with updated_at := t1 } := by
    simp [load_doc, save_doc, stateJson, limitsJson, from_dict, jLookup, pyStr,
      exceptBindOk, pyInt_num_int, jOptStr_optStrJson, readOptFloat_saved, readOptInt_saved,
      mapExcept_loadResumeEvent, pyFloat]
  refine ⟨h1, ?_, ?_⟩
  · rw [h1]
    simp [save_doc, Except.map]
  · simp [save_doc, stateJson, jGetField, jLookup]

/-- One JSONL log record (only the fields claims inspect: the event type and
the iteration tag; payload bodies are not modelled). -/
structure Event where
  event_type : String
  iteration : Option ℤ

/-- The on-disk artifacts of a run directory: the state file (`state.json`),
the events log (`logs/events.jsonl`, a file that exists once the first line
was appended) and the per-iteration log (`logs/iterations.jsonl`, recorded
here as the iteration numbers appended). -/
structure Disk where
  stateFile : Option RunState
  eventsLog : List Event
  iterationsLog : List ℤ

/-- Python truthiness of `state.session_id` (`str | None`). -/
def sessionTruthy : Option String → Bool
  | none => false
  | some s => decide (s ≠ "")

/-- `state.started_at or utc_now_iso()`: `None` and the empty string are
falsy. -/
def orNow (cur : Option String) (now : String) : Option String :=
  match cur with
  | none => some now
  | some s => if s = "" then some now else some s

/-- `run_state.save_state`: stamp `updated_at` on the in-memory state, then
write the document; the state file on disk now holds exactly this state. -/
def save_state (now : String) (st : RunState) (d : Disk) : RunState × Disk :=
  let st' := { st with updated_at := now }
  (st', { d with stateFile := some st' })

/-- `RalphLoopRunner._load_or_initialize_state`: load the state file if
present else build from the manifest (`mState` is the `_state_from_manifest`
result), apply the permission-mode override, reject non-`claude` providers,
and for `mode="run"` reject non-virgin state (nonzero iteration or truthy
session) before applying overrides, recording the history event and saving.
Validation failures return the error and leave the disk untouched. -/
def load_or_initialize_state (now : String) (mode : String) (cfg : RalphLoopConfig)
    (mState : RunState) (disk : Disk) : Except String RunState × Disk :=
  let state0 := match disk.stateFile with
    | some s => s
    | none => mState
  let state1 := match cfg.permission_mode_override with
    | some p => { state0 with permission_mode := some p }
    | none => state0
  if state1.provider ≠ "claude" then
    (Except.error ("Unsupported provider for this runner: " ++ state1.provider), disk)
  else if mode = "run" then
    if 0 < state1.iteration ∨ sessionTruthy state1.session_id = true then
      (Except.error "Run already has state. Use `resume` command to continue.", disk)
    else
      let st2 := { state1 with status := "running", started_at := orNow state1.started_at now }
      let st3 := apply_run_overrides cfg st2
      let st4 := add_resume_event now "run" [("kind", Jval.str "fresh_start")] st3
      let saved := save_state now st4 disk
      (Except.ok saved.1, saved.2)
  else
    let st2 := { state1 with status := "running", started_at := orNow state1.started_at now }
    let st3 := apply_resume_overrides now cfg st2
    let saved := save_state now st3 disk
    (Except.ok saved.1, saved.2)

/-- C6: starting in `run` mode on a state that already has a nonzero
iteration counter or an existing (non-empty) session id fails fast with an
error, and the on-disk state file (and the rest of the run directory
artifacts) are byte-for-byte unchanged: no save happens on this path. -/
theorem run_nonvirgin_c6 (now : String) (cfg : RalphLoopConfig) (mState : RunState)
    (disk : Disk) (s : RunState) :
    disk.stateFile = some s →
    (0 < s.iteration ∨ (∃ sid, s.session_id = some sid ∧ sid ≠ "")) →
    (∃ e, (load_or_initialize_state now "run" cfg mState disk).1 = Except.error e)
    ∧ (load_or_initialize_state now "run" cfg mState disk).2 = disk := by
  intro hsf hvirgin
  have hC : 0 < s.iteration ∨ sessionTruthy s.session_id = true := by
    rcases hvirgin with h | ⟨sid, hsid, hne⟩
    · exact Or.inl h
    · right
      simp [sessionTruthy, hsid, hne]
  cases hpo : cfg.permission_mode_override <;>
    simp only [load_or_initialize_state, hsf, hpo] <;>
      split_ifs with h1 h2 <;>
        first
          | exact ⟨⟨_, rfl⟩, rfl⟩
          | exact absurd hC (by simpa using h2)

/-- A non-virgin state: three iterations done, with a live session. -/
def c6State : RunState :=
  { baseState with iteration := 3, session_id := some "sess-9", status := "running" }

/-- A disk holding the non-virgin state. -/
def c6Disk : Disk := { stateFile := some c6State, eventsLog := [], iterationsLog := [] }

/-- Witness for C6: a forced fresh run on the non-virgin disk state errors
and returns the disk unchanged. -/
theorem run_nonvirgin_c6_witness :
    (∃ e, (load_or_initialize_state "t3" "run" {} baseState c6Disk).1 = Except.error e)
    ∧ (load_or_initialize_state "t3" "run" {} baseState c6Disk).2 = c6Disk :=
  run_nonvirgin_c6 "t3" {} baseState c6Disk c6State rfl (Or.inl (by norm_num [c6State]))

/-- `ralph_loop._result_stop_reason`: service-reported soft limits and error
classification of the terminal result. -/
def result_stop_reason (result_subtype : String) (is_error : Bool) :
    Option String × Option String :=
  if result_subtype = "error_max_budget_usd" then
    (some "sdk_max_budget_reached", some result_subtype)
  else if result_subtype = "error_max_turns" then
    (some "sdk_max_turns_reached", some result_subtype)
  else if is_error then
    (some "sdk_error", some result_subtype)
  else
    (none, none)

/-- Outcome of the `while True` loop: either the runner returns a terminal
state, or the scripted result stream ran dry (the model's stand-in for a
conversation that would still be in flight). -/
inductive LoopOutcome where
  | finished (final : RunState) : LoopOutcome
  | starved (current : RunState) : LoopOutcome

/-- The budget-stop transition of the loop head: mark stopped, record reason
and detail from the stop check, stamp and save. -/
def stoppedState (now : String) (st : RunState) : RunState :=
  { st with
    status := "stopped"
    stopped_at := some now
    last_stop_reason := (state_stop_check st).2.1
    last_stop_detail := (state_stop_check st).2.2
    updated_at := now }

/-- Disk effects of one completed iteration: the `iteration.start` event, the
iteration record append, and the post-accounting `save_state`. -/
def stepDisk (now : String) (st : RunState) (r : IterResult) (disk : Disk) : Disk :=
  { disk with
    eventsLog := disk.eventsLog ++ [⟨"iteration.start", some (st.iteration + 1)⟩]
    iterationsLog := disk.iterationsLog ++ [(applyAccounting st r).iteration]
    stateFile := some { applyAccounting st r with updated_at := now } }

/-- The `while True` loop of `RalphLoopRunner.run`, driven by a scripted list
of terminal results (one per conversation invocation; per-message `sdk.*`
events and the checkpoint side effects are elided — no claim inspects them).
Each pass: budget stop check first; on stop persist and return.  Otherwise
consume the next result, account for it, persist, then apply the
service-reported stop classification (`stopped` for `sdk_max_*`, `failed`
otherwise) or loop. -/
def run_iterations (now : String) : List IterResult → RunState → Disk → LoopOutcome × Disk
  | rs, st, disk =>
    if (state_stop_check st).1 then
      (LoopOutcome.finished (stoppedState now st),
       { stateFile := some (stoppedState now st),
         eventsLog := disk.eventsLog ++ [⟨"run.stop", some st.iteration⟩],
         iterationsLog := disk.iterationsLog })
    else
      match rs with
      | [] => (LoopOutcome.starved st, disk)
      | r :: rest =>
        let st2 := { applyAccounting st r with updated_at := now }
        let disk2 := stepDisk now st r disk
        match result_stop_reason r.subtype r.is_error with
        | (some reason, detail) =>
          let st3 := { st2 with
            status := if reason.startsWith "sdk_max_" then "stopped" else "failed"
            stopped_at := some now
            last_stop_reason := some reason
            last_stop_detail := detail
            updated_at := now }
          (LoopOutcome.finished st3,
           { disk2 with
             stateFile := some st3
             eventsLog := disk2.eventsLog ++ [⟨"run.stop", some st2.iteration⟩] })
        | (none, _) => run_iterations now rest st2 disk2

/-- `RalphLoopRunner` construction plus `run()` up to the loop: initialize or
load state (saving it), emit the `run.start` event, then iterate. -/
def run_loop (now : String) (mode : String) (cfg : RalphLoopConfig) (mState : RunState)
    (disk : Disk) (results : List IterResult) : Except String (LoopOutcome × Disk) :=
  match load_or_initialize_state now mode cfg mState disk with
  | (Except.error e, _) => Except.error e
  | (Except.ok st, d) =>
    let d1 := { d with eventsLog := d.eventsLog ++ [⟨"run.start", some st.iteration⟩] }
    Except.ok (run_iterations now results st d1)

/-- A terminal result that triggers no service-side stop classification. -/
def benign (r : IterResult) : Prop :=
  r.subtype ≠ "error_max_budget_usd" ∧ r.subtype ≠ "error_max_turns" ∧ r.is_error = false

/-- No budget dimension other than the iteration ceiling is at its limit. -/
def noOtherCeiling (st : RunState) : Prop :=
  costLimitHit st = false ∧ tokensLimitHit st = false ∧ timeLimitHit st = false

/-- The loop-head states visited while consuming the given results. -/
def loopStates (now : String) (st : RunState) : List IterResult → List RunState
  | [] => [st]
  | r :: rest => st :: loopStates now { applyAccounting st r with updated_at := now } rest

instance (r : IterResult) : Decidable (benign r) := by
  unfold benign
  infer_instance

instance (st : RunState) : Decidable (noOtherCeiling st) := by
  unfold noOtherCeiling
  infer_instance

theorem run_iterations_stop (now : String) (rs : List IterResult) (st : RunState) (disk : Disk)
    (h : (state_stop_check st).1 = true) :
    run_iterations now rs st disk =
      (LoopOutcome.finished (stoppedState now st),
       { stateFile := some (stoppedState now st),
         eventsLog := disk.eventsLog ++ [⟨"run.stop", some st.iteration⟩],
         iterationsLog := disk.iterationsLog }) := by
  rw [run_iterations.eq_def]
  simp [h]

theorem run_iterations_step (now : String) (r : IterResult) (rest : List IterResult)
    (st : RunState) (disk : Disk) (h : (state_stop_check st).1 = false)
    (hr : result_stop_reason r.subtype r.is_error = (none, none)) :
    run_iterations now (r :: rest) st disk =
      run_iterations now rest { applyAccounting st r with updated_at := now }
        (stepDisk now st r disk) := by
  rw [run_iterations.eq_def]
  simp only [h, hr]
  rfl

theorem applyAccounting_limits (st : RunState) (r : IterResult) :
    (applyAccounting st r).limits = st.limits := rfl

theorem applyAccounting_iteration (st : RunState) (r : IterResult) :
    (applyAccounting st r).iteration = st.iteration + 1 := rfl

/-- With `max_iterations = iteration + n`, benign results and no other
ceiling firing at any visited loop-head state, the loop performs exactly `n`
more iterations and stops with reason `max_iterations_reached`. -/
theorem run_iterations_exact (now : String) (n : ℕ) :
    ∀ (rs : List IterResult) (st : RunState) (disk : Disk),
    st.limits.max_iterations = some (st.iteration + n) →
    n ≤ rs.length →
    (∀ r ∈ rs.take n, benign r) →
    (∀ s ∈ loopStates now st (rs.take n), noOtherCeiling s) →
    ∃ final d2, run_iterations now rs st disk = (LoopOutcome.finished final, d2)
      ∧ final.iteration = st.iteration + n
      ∧ final.status = "stopped"
      ∧ final.last_stop_reason = some "max_iterations_reached"
      ∧ d2.iterationsLog.length = disk.iterationsLog.length + n
      ∧ d2.stateFile = some final := by
  induction n with
  | zero =>
    intro rs st disk hlim hlen hben hno
    have hhit : iterLimitHit st = true := by
      simp [iterLimitHit, hlim]
    have hreason : (state_stop_check st).2.1 = some "max_iterations_reached" := by
      simp [state_stop_check, hhit]
    have hflag : (state_stop_check st).1 = true := by
      simp [state_stop_check, hhit]
    refine ⟨stoppedState now st, _, run_iterations_stop now rs st disk hflag, ?_, rfl, ?_, ?_, rfl⟩
    · simp [stoppedState]
    · simp [stoppedState, hreason]
    · simp
  | succ n ih =>
    intro rs st disk hlim hlen hben hno
    cases rs with
    | nil => simp at hlen
    | cons r rest =>
      have htake : (r :: rest).take (n + 1) = r :: rest.take n := by
        simp [List.take_succ_cons]
      have hnohead : noOtherCeiling st := by
        apply hno
        rw [htake]
        simp [loopStates]
      have hhit : iterLimitHit st = false := by
        simp only [iterLimitHit, hlim]
        simp only [decide_eq_false_iff_not]
        push_cast
        omega
      have hflag : (state_stop_check st).1 = false := by
        simp [state_stop_check, hhit, hnohead.1, hnohead.2.1, hnohead.2.2]
      have hbr : benign r := by
        apply hben
        rw [htake]
        simp
      have hrsr : result_stop_reason r.subtype r.is_error = (none, none) := by
        rcases hbr with ⟨h1, h2, h3⟩
        simp [result_stop_reason, h1, h2, h3]
      rw [run_iterations_step now r rest st disk hflag hrsr]
      have hlim2 : ({ applyAccounting st r with updated_at := now } : RunState).limits.max_iterations
          = some (({ applyAccounting st r with updated_at := now } : RunState).iteration + n) := by
        simp only [applyAccounting]
        rw [hlim]
        push_cast
        ring_nf
      have hlen2 : n ≤ rest.length := by
        simpa using Nat.le_of_succ_le_succ hlen
      have hben2 : ∀ x ∈ rest.take n, benign x := by
        intro x hx
        apply hben
        rw [htake]
        exact List.mem_cons_of_mem r hx
      have hno2 : ∀ s ∈ loopStates now { applyAccounting st r with updated_at := now }
          (rest.take n), noOtherCeiling s := by
        intro s hs
        apply hno
        rw [htake]
        simp only [loopStates]
        exact List.mem_cons_of_mem st hs
      obtain ⟨final, d2, heq, hi, hsstat, hreas, hlog, hsf⟩ :=
        ih rest { applyAccounting st r with updated_at := now } (stepDisk now st r disk)
          hlim2 hlen2 hben2 hno2
      refine ⟨final, d2, heq, ?_, hsstat, hreas, ?_, hsf⟩
      · rw [hi]
        simp only [applyAccounting]
        push_cast
        ring
      · rw [hlog]
        simp [stepDisk]
        omega

/-- `x if override is not None else current` (absolute override merge). -/
def overrideOpt {α : Type} (ov cur : Option α) : Option α :=
  match ov with
  | some v => some v
  | none => cur

/-- The limits produced by `_apply_run_overrides`. -/
def runOverrideLimits (cfg : RalphLoopConfig) (l : RunLimits) : RunLimits :=
  { l with
    max_cost_usd := overrideOpt cfg.max_cost_usd l.max_cost_usd
    max_time_minutes := overrideOpt cfg.max_time_minutes l.max_time_minutes
    max_tokens_total := overrideOpt cfg.max_tokens_total l.max_tokens_total
    max_iterations := overrideOpt cfg.max_iterations l.max_iterations }

theorem apply_run_overrides_eq (cfg : RalphLoopConfig) (st : RunState) :
    apply_run_overrides cfg st = { st with limits := runOverrideLimits cfg st.limits } := by
  simp only [apply_run_overrides, runOverrideLimits, overrideOpt]
  cases cfg.max_cost_usd <;> cases cfg.max_time_minutes <;>
    cases cfg.max_tokens_total <;> cases cfg.max_iterations <;> rfl

/-- A fresh `run`-mode start on a virgin manifest state and an empty run
directory succeeds: the initialized state is saved, carries the overridden
limits, status `running`, and iteration 0. -/
theorem load_or_init_run (now : String) (cfg : RalphLoopConfig) (mState : RunState)
    (disk : Disk) (hsf : disk.stateFile = none) (hpro : mState.provider = "claude")
    (hit : mState.iteration = 0) (hsid : mState.session_id = none) :
    ∃ st5, load_or_initialize_state now "run" cfg mState disk
        = (Except.ok st5, { disk with stateFile := some st5 })
      ∧ st5.iteration = 0
      ∧ st5.limits = runOverrideLimits cfg mState.limits
      ∧ st5.status = "running" := by
  cases hpo : cfg.permission_mode_override with
  | none =>
    refine ⟨{ add_resume_event now "run" [("kind", Jval.str "fresh_start")] (apply_run_overrides cfg { mState with status := "running", started_at := orNow mState.started_at now }) with updated_at := now }, ?_, ?_, ?_, ?_⟩
    · simp only [load_or_initialize_state, hsf, hpo]
      rw [if_neg (by simp [hpro]), if_pos trivial,
        if_neg (by simp [hit, hsid, sessionTruthy])]
      rfl
    · simp [add_resume_event, apply_run_overrides_eq, hit]
    · simp [add_resume_event, apply_run_overrides_eq]
    · simp [add_resume_event, apply_run_overrides_eq]
  | some p =>
    refine ⟨{ add_resume_event now "run" [("kind", Jval.str "fresh_start")] (apply_run_overrides cfg { mState with permission_mode := some p, status := "running", started_at := orNow mState.started_at now }) with updated_at := now }, ?_, ?_, ?_, ?_⟩
    · simp only [load_or_initialize_state, hsf, hpo]
      rw [if_neg (by simp [hpro]), if_pos trivial,
        if_neg (by simp [hit, hsid, sessionTruthy])]
      rfl
    · simp [add_resume_event, apply_run_overrides_eq, hit]
    · simp [add_resume_event, apply_run_overrides_eq]
    · simp [add_resume_event, apply_run_overrides_eq]

/-- A state at iteration 0 whose iteration ceiling is 0 stops at the loop
head, before any invocation. -/
theorem run_iterations_hit_zero (now : String) (rs : List IterResult) (st : RunState)
    (disk : Disk) (hlim : st.limits.max_iterations = some 0) (hit : st.iteration = 0) :
    run_iterations now rs st disk =
      (LoopOutcome.finished (stoppedState now st),
       { stateFile := some (stoppedState now st)
         eventsLog := disk.eventsLog ++ [⟨"run.stop", some st.iteration⟩]
         iterationsLog := disk.iterationsLog })
    ∧ (stoppedState now st).status = "stopped"
    ∧ (stoppedState now st).last_stop_reason = some "max_iterations_reached"
    ∧ (stoppedState now st).iteration = 0 := by
  have hhit : iterLimitHit st = true := by
    simp [iterLimitHit, hlim, hit]
  refine ⟨run_iterations_stop now rs st disk (by simp [state_stop_check, hhit]), rfl, ?_, ?_⟩
  · simp [stoppedState, state_stop_check, hhit]
  · simp [stoppedState, hit]

/-- C2: a `run`-mode start whose initialized state has `max_iterations = 0`
stops before consuming any scripted result: the returned state is `stopped`
with reason `max_iterations_reached` at iteration 0, the state file holds it,
the events log is non-empty, and no iteration record was written.  In
general, from iteration 0 with `max_iterations = N`, benign results and no
other ceiling firing at any visited loop-head state, exactly N iterations are
performed before stopping with reason `max_iterations_reached`. -/
theorem loop_iterations_c2 :
    (∀ (now : String) (cfg : RalphLoopConfig) (mState : RunState) (disk : Disk),
      mState.provider = "claude" → mState.iteration = 0 → mState.session_id = none →
      disk.stateFile = none →
      (apply_run_overrides cfg mState).limits.max_iterations = some 0 →
      ∃ final d2, run_loop now "run" cfg mState disk [] =
          Except.ok (LoopOutcome.finished final, d2)
        ∧ final.status = "stopped"
        ∧ final.last_stop_reason = some "max_iterations_reached"
        ∧ final.iteration = 0
        ∧ d2.stateFile = some final
        ∧ d2.eventsLog ≠ []
        ∧ d2.iterationsLog = disk.iterationsLog)
    ∧ (∀ (now : String) (n : ℕ) (rs : List IterResult) (st : RunState) (disk : Disk),
        st.iteration = 0 → st.limits.max_iterations = some (n : ℤ) →
        n ≤ rs.length → (∀ r ∈ rs.take n, benign r) →
        (∀ s ∈ loopStates now st (rs.take n), noOtherCeiling s) →
        ∃ final d2, run_iterations now rs st disk = (LoopOutcome.finished final, d2)
          ∧ final.iteration = (n : ℤ)
          ∧ final.status = "stopped"
          ∧ final.last_stop_reason = some "max_iterations_reached"
          ∧ d2.iterationsLog.length = disk.iterationsLog.length + n) := by
  constructor
  · intro now cfg mState disk hpro hit hsid hsf hlim
    have hlimR : (runOverrideLimits cfg mState.limits).max_iterations = some 0 := by
      rw [apply_run_overrides_eq] at hlim
      simpa using hlim
    obtain ⟨st5, hload, hi5, hl5, hs5⟩ := load_or_init_run now cfg mState disk hsf hpro hit hsid
    have hlim5 : st5.limits.max_iterations = some 0 := by
      rw [hl5]
      exact hlimR
    have hz := run_iterations_hit_zero now [] st5
      { stateFile := some st5
        eventsLog := disk.eventsLog ++ [⟨"run.start", some st5.iteration⟩]
        iterationsLog := disk.iterationsLog } hlim5 hi5
    have hmain : run_loop now "run" cfg mState disk [] =
        Except.ok (LoopOutcome.finished (stoppedState now st5),
          { stateFile := some (stoppedState now st5)
            eventsLog := (disk.eventsLog ++ [⟨"run.start", some st5.iteration⟩])
              ++ [⟨"run.stop", some st5.iteration⟩]
            iterationsLog := disk.iterationsLog }) := by
      simp only [run_loop, hload]
      exact congrArg Except.ok hz.1
    exact ⟨stoppedState now st5, _, hmain, hz.2.1, hz.2.2.1, hz.2.2.2, rfl, by simp, rfl⟩
  · intro now n rs st disk h0 hlim hlen hben hno
    have hlim' : st.limits.max_iterations = some (st.iteration + n) := by
      rw [hlim, h0]
      simp
    obtain ⟨final, d2, heq, hi, hstat, hreas, hlog, _⟩ :=
      run_iterations_exact now n rs st disk hlim' hlen hben hno
    refine ⟨final, d2, heq, ?_, hstat, hreas, hlog⟩
    rw [hi, h0]
    simp

/-- A virgin state whose only ceiling is one iteration. -/
def c2St : RunState := { baseState with limits := { max_iterations := some 1 } }

/-- One benign scripted result. -/
def c2Res : IterResult :=
  { session_id := "s1", total_cost_usd := some 1, usage := none,
    subtype := "success", is_error := false, elapsed_seconds := 2 }

/-- Witness for C2 at a concrete state, result list and empty disk: exactly
one iteration happens before the stop. -/
theorem loop_iterations_c2_witness :
    ∃ final d2, run_iterations "t0" [c2Res] c2St
        { stateFile := none, eventsLog := [], iterationsLog := [] } =
        (LoopOutcome.finished final, d2)
      ∧ final.iteration = ((1 : ℕ) : ℤ)
      ∧ final.status = "stopped"
      ∧ final.last_stop_reason = some "max_iterations_reached"
      ∧ d2.iterationsLog.length =
          ({ stateFile := none, eventsLog := [], iterationsLog := [] } : Disk).iterationsLog.length
            + 1 :=
  loop_iterations_c2.2 "t0" 1 [c2Res] c2St
    { stateFile := none, eventsLog := [], iterationsLog := [] }
    rfl rfl (by norm_num) (by decide) (by decide)

/-- Python `str.lower()` (ASCII case mapping; provider names are ASCII). -/
def pyLower (s : String) : String := (s.data.map Char.toLower).asString

/-- `execution if isinstance(execution, dict) else {}` (and the like). -/
def asObj : Jval → List (String × Jval)
  | Jval.obj kvs => kvs
  | _ => []

/-- `isolation_launcher._read_execution_block`: descend
`architecture.config.execution` with `{}` fallbacks at every level. -/
def readExecutionBlock (manifest : List (String × Jval)) : List (String × Jval) :=
  let arch := (jLookup manifest "architecture").getD (Jval.obj [])
  let cfg := match arch with
    | Jval.obj a => (jLookup a "config").getD (Jval.obj [])
    | _ => Jval.obj []
  let execution := match cfg with
    | Jval.obj c => (jLookup c "execution").getD (Jval.obj [])
    | _ => Jval.obj []
  asObj execution

/-- The provider read in `resolve_execution_config`:
`manifest.get("architecture", {}).get("config", {}).get("agent", {})` is an
unguarded attribute chain (raises on non-mapping intermediates), then
`str(agent.get("provider", "")).lower() if isinstance(agent, dict) else ""`. -/
def providerOf (manifest : List (String × Jval)) : Except String String :=
  match (jLookup manifest "architecture").getD (Jval.obj []) with
  | Jval.obj a =>
    match (jLookup a "config").getD (Jval.obj []) with
    | Jval.obj c =>
      match (jLookup c "agent").getD (Jval.obj []) with
      | Jval.obj g => Except.ok (pyLower (pyStr ((jLookup g "provider").getD (Jval.str ""))))
      | _ => Except.ok ""
    | _ => Except.error "AttributeError: config is not a mapping"
  | _ => Except.error "AttributeError: architecture is not a mapping"

/-- The manifest's `execution.container` block (with `{}` fallback). -/
def manifestContainer (m : List (String × Jval)) : List (String × Jval) :=
  asObj ((jLookup (readExecutionBlock m) "container").getD (Jval.obj []))

/-- `str(execution.get("mode", "host"))`. -/
def manifestMode (m : List (String × Jval)) : String :=
  pyStr ((jLookup (readExecutionBlock m) "mode").getD (Jval.str "host"))

/-- `str(container.get("runtime", "docker"))`. -/
def manifestRuntime (m : List (String × Jval)) : String :=
  pyStr ((jLookup (manifestContainer m) "runtime").getD (Jval.str "docker"))

/-- `str(container.get("image", DEFAULT_CONTAINER_IMAGE))`. -/
def manifestImage (m : List (String × Jval)) : String :=
  pyStr ((jLookup (manifestContainer m) "image").getD (Jval.str "kalshi-lab-claude-runner:latest"))

/-- `str(container.get("network", "none"))`. -/
def manifestNetwork (m : List (String × Jval)) : String :=
  pyStr ((jLookup (manifestContainer m) "network").getD (Jval.str "none"))

/-- `bool(container.get("use_bypass_permissions", False))`. -/
def manifestUseBypass (m : List (String × Jval)) : Bool :=
  pyTruthy ((jLookup (manifestContainer m) "use_bypass_permissions").getD (Jval.bool false))

/-- CLI-level execution overrides (`isolation_launcher.ExecutionOverrides`). -/
structure ExecutionOverrides where
  mode : Option String := none
  runtime : Option String := none
  network : Option String := none
  use_bypass_permissions : Option Bool := none

/-- Effective execution configuration (`isolation_launcher.ExecutionConfig`). -/
structure ExecutionConfig where
  mode : String
  runtime : String
  image : String
  network : String
  use_bypass_permissions : Bool
deriving DecidableEq

/-- The resolved network: an explicit override wins verbatim; otherwise the
claude-provider promotion of a `none` manifest network to `default`. -/
def resolvedNetwork (m : List (String × Jval)) (ov : ExecutionOverrides)
    (provider : String) : String :=
  match ov.network with
  | some n => n
  | none =>
    if provider = "claude" ∧ manifestNetwork m = "none" then "default" else manifestNetwork m

/-- `isolation_launcher.resolve_execution_config`: merge manifest settings
with overrides, apply the claude network promotion, and validate mode,
runtime and network memberships (raising on any other value). -/
def resolve_execution_config (m : List (String × Jval)) (ov : ExecutionOverrides) :
    Except String ExecutionConfig := do
  let provider ← providerOf m
  let mode := ov.mode.getD (manifestMode m)
  let runtime := ov.runtime.getD (manifestRuntime m)
  let network := resolvedNetwork m ov provider
  let use_bypass := ov.use_bypass_permissions.getD (manifestUseBypass m)
  if mode ≠ "host" ∧ mode ≠ "container" then
    Except.error ("Invalid execution mode: " ++ mode)
  else if runtime ≠ "docker" ∧ runtime ≠ "podman" then
    Except.error ("Invalid container runtime: " ++ runtime)
  else if network ≠ "none" ∧ network ≠ "default" then
    Except.error ("Invalid container network mode: " ++ network)
  else
    Except.ok ⟨mode, runtime, manifestImage m, network, use_bypass⟩

theorem exceptBindErr {α β : Type} (e : String) (f : α → Except String β) :
    (Except.error e : Except String α) >>= f = Except.error e := rfl

/-- C9: a successfully resolved execution config has mode in
{host, container}, runtime in {docker, podman} and network in
{none, default}; an out-of-set resolved mode always raises; with provider
`claude`, a manifest network of `none` and no caller network override, the
resolved network is promoted to `default`; and a caller network override is
taken verbatim into the resolved config. -/
theorem resolve_execution_c9 (m : List (String × Jval)) (ov : ExecutionOverrides) :
    (∀ c, resolve_execution_config m ov = Except.ok c →
      (c.mode = "host" ∨ c.mode = "container")
      ∧ (c.runtime = "docker" ∨ c.runtime = "podman")
      ∧ (c.network = "none" ∨ c.network = "default"))
    ∧ (∀ p, providerOf m = Except.ok p →
        ov.mode.getD (manifestMode m) ≠ "host" → ov.mode.getD (manifestMode m) ≠ "container" →
        ∃ e, resolve_execution_config m ov = Except.error e)
    ∧ (providerOf m = Except.ok "claude" → manifestNetwork m = "none" → ov.network = none →
        ∀ c, resolve_execution_config m ov = Except.ok c → c.network = "default")
    ∧ (∀ nv, ov.network = some nv →
        ∀ c, resolve_execution_config m ov = Except.ok c → c.network = nv) := by
  refine ⟨?_, ?_, ?_, ?_⟩
  · intro c hc
    unfold resolve_execution_config at hc
    cases hp : providerOf m with
    | error e =>
      rw [hp, exceptBindErr] at hc
      exact Except.noConfusion hc
    | ok p =>
      rw [hp, exceptBindOk] at hc
      dsimp only at hc
      split_ifs at hc with h1 h2 h3
      all_goals
        first
          | exact Except.noConfusion hc
          | (rw [Except.ok.injEq] at hc
             subst hc
             push_neg at h1 h2 h3
             exact ⟨by tauto, by tauto, by tauto⟩)
  · intro p hp hm1 hm2
    unfold resolve_execution_config
    rw [hp, exceptBindOk, if_pos ⟨hm1, hm2⟩]
    exact ⟨_, rfl⟩
  · intro hp hmn hov c hc
    unfold resolve_execution_config at hc
    rw [hp, exceptBindOk] at hc
    have hnet : resolvedNetwork m ov "claude" = "default" := by
      simp [resolvedNetwork, hov, hmn]
    rw [hnet] at hc
    dsimp only at hc
    split_ifs at hc
    all_goals
      first
        | exact Except.noConfusion hc
        | (rw [Except.ok.injEq] at hc
           subst hc
           rfl)
  · intro nv hov c hc
    unfold resolve_execution_config at hc
    cases hp : providerOf m with
    | error e =>
      rw [hp, exceptBindErr] at hc
      exact Except.noConfusion hc
    | ok p =>
      rw [hp, exceptBindOk] at hc
      have hnet : resolvedNetwork m ov p = nv := by
        simp [resolvedNetwork, hov]
      rw [hnet] at hc
      dsimp only at hc
      split_ifs at hc
      all_goals
        first
          | exact Except.noConfusion hc
          | (rw [Except.ok.injEq] at hc
             subst hc
             rfl)

/-- A manifest whose agent provider is `claude` and with no execution block. -/
def c9Manifest : List (String × Jval) :=
  [("architecture", Jval.obj
    [("config", Jval.obj [("agent", Jval.obj [("provider", Jval.str "claude")])])])]

/-- Witness for C9: on the claude manifest with no overrides, resolution
succeeds with the promoted `default` network and in-set mode/runtime; with a
verbatim network override `none`, the resolved network is `none`. -/
theorem resolve_execution_c9_witness :
    ((ExecutionConfig.mk "host" "docker" "kalshi-lab-claude-runner:latest" "default" false).mode
        = "host"
      ∨ (ExecutionConfig.mk "host" "docker" "kalshi-lab-claude-runner:latest" "default" false).mode
        = "container")
    ∧ (ExecutionConfig.mk "host" "docker" "kalshi-lab-claude-runner:latest" "default" false).network
        = "default"
    ∧ (ExecutionConfig.mk "host" "docker" "kalshi-lab-claude-runner:latest" "none" false).network
        = "none" := by
  refine ⟨?_, ?_, ?_⟩
  · exact ((resolve_execution_c9 c9Manifest {}).1 _ (by rfl)).1
  · exact (resolve_execution_c9 c9Manifest {}).2.2.1 (by rfl) (by rfl) rfl _ (by rfl)
  · exact (resolve_execution_c9 c9Manifest { network := some "none" }).2.2.2 "none" rfl _ (by rfl)

/-- The key set of a host environment mapping. -/
def envKeySet (env : List (String × String)) : Finset String :=
  (env.map Prod.fst).toFinset

/-- The fixed allow-list of `_passthrough_env_names`. -/
def baseEnvKeys : Finset String :=
  {"ANTHROPIC_API_KEY", "ANTHROPIC_BASE_URL", "ANTHROPIC_AUTH_TOKEN",
   "HTTP_PROXY", "HTTPS_PROXY", "NO_PROXY", "ALL_PROXY"}

/-- `isolation_launcher._passthrough_env_names`: the allow-list, every
present `ANTHROPIC_`-prefixed variable, the alias-promotion of the canonical
credential name, then `sorted([key for key in keys if key in env or key ==
ANTHROPIC_API_KEY_ENV])`.  The Python `set` is a `Finset`; `sorted` is the
canonical ascending sort. -/
def passthrough_env_names (env : List (String × String)) : List String :=
  let keys1 := baseEnvKeys ∪ (envKeySet env).filter (fun k => k.startsWith "ANTHROPIC_")
  let keys2 :=
    if "AGENT_LAB_ANTHROPIC_API_KEY" ∈ envKeySet env ∧ "ANTHROPIC_API_KEY" ∉ envKeySet env then
      insert "ANTHROPIC_API_KEY" keys1
    else keys1
  (keys2.filter (fun k => k ∈ envKeySet env ∨ k = "ANTHROPIC_API_KEY")).sort (· ≤ ·)

/-- C10: for every host environment, the passthrough name list is sorted
(hence deterministic, despite the unordered set it is drawn from) and
duplicate-free; any non-canonical name it contains is actually present in the
environment; and it always contains the canonical `ANTHROPIC_API_KEY`, even
when neither that variable nor the `AGENT_LAB_ANTHROPIC_API_KEY` alias is
set. -/
theorem passthrough_env_c10 (env : List (String × String)) :
    List.Sorted (· ≤ ·) (passthrough_env_names env)
    ∧ (passthrough_env_names env).Nodup
    ∧ (∀ k ∈ passthrough_env_names env, k ≠ "ANTHROPIC_API_KEY" → k ∈ env.map Prod.fst)
    ∧ "ANTHROPIC_API_KEY" ∈ passthrough_env_names env := by
  unfold passthrough_env_names
  refine ⟨Finset.sort_sorted _ _, Finset.sort_nodup _ _, ?_, ?_⟩
  · intro k hk hne
    rw [Finset.mem_sort, Finset.mem_filter] at hk
    rcases hk.2 with h | h
    · simpa [envKeySet] using h
    · exact absurd h hne
  · rw [Finset.mem_sort, Finset.mem_filter]
    refine ⟨?_, Or.inr rfl⟩
    have hbase : "ANTHROPIC_API_KEY" ∈ baseEnvKeys := Finset.mem_insert_self _ _
    split_ifs with h
    · exact Finset.mem_insert_self _ _
    · exact Finset.mem_union_left _ hbase
